import Mathlib

/-!
Shallow embedding of the trigger classification and extraction engine of
`src/triggers/aws_lambda.js` (epsagon-node).  JavaScript values reaching the
classifier are JSON-like: we model them with `JsValue`, including `undefined`
(the result of accessing a missing property).  Operations that throw a
`TypeError` in JavaScript (the `in` operator on a non-object, property access
on `null`/`undefined`, calling string methods on non-strings) are modelled in
the `Except Unit` monad.
-/

namespace Epsagon

/-- Model of a JavaScript (JSON-like) runtime value.  `undefined` is the value of
a missing property access; it cannot occur inside parsed JSON but does occur
as an intermediate result. -/
inductive JsValue : Type where
  | undefined : JsValue
  | null : JsValue
  | bool : Bool → JsValue
  | num : Int → JsValue
  | str : String → JsValue
  | arr : List JsValue → JsValue
  | obj : List (String × JsValue) → JsValue
deriving Repr

/-- JavaScript truthiness: `undefined`, `null`, `false`, `0` and the empty
string are falsy; everything else (including `{}` and `[]`) is truthy. -/
def truthy : JsValue → Bool
  | .undefined => false
  | .null => false
  | .bool b => b
  | .num n => n != 0
  | .str s => s ≠ ""
  | .arr _ => true
  | .obj _ => true

/-- First binding of key `k` in an object field list. -/
def lookupField : List (String × JsValue) → String → Option JsValue
  | [], _ => none
  | (k, v) :: rest, key => if k = key then some v else lookupField rest key

/-- Value of key `k` in an object field list, `undefined` when the key is absent
(JavaScript property access on an object). -/
def lookupD (fs : List (String × JsValue)) (k : String) : JsValue :=
  match lookupField fs k with
  | some v => v
  | none => .undefined

/-- Whether the JavaScript `in` operator would report key `k` present on `v`
(assuming `v` is an object or array).  On arrays only numeric indices below
the length (and `length` itself) are own/inherited keys that the source ever
asks about. -/
def hasKeyB (v : JsValue) (k : String) : Bool :=
  match v with
  | .obj fs => (lookupField fs k).isSome
  | .arr xs =>
      (match k.toNat? with
       | some i => i < xs.length
       | none => k = "length")
  | _ => false

/-- The JavaScript `in` operator: `k in v`.  Throws a `TypeError` when `v` is
not an object (null, undefined or a primitive). -/
def jsIn (k : String) (v : JsValue) : Except Unit Bool :=
  match v with
  | .obj _ => .ok (hasKeyB v k)
  | .arr _ => .ok (hasKeyB v k)
  | _ => .error ()

/-- JavaScript property access `v.k` (or `v["k"]`).  Throws a `TypeError` on
`null`/`undefined`; yields `undefined` for a missing key; primitives have none of
the accessed properties (boxed wrappers yield `undefined`). -/
def jsGet (v : JsValue) (k : String) : Except Unit JsValue :=
  match v with
  | .undefined => .error ()
  | .null => .error ()
  | .obj fs => .ok (lookupD fs k)
  | .arr xs =>
      .ok (match k.toNat? with
           | some i => (xs.get? i).getD .undefined
           | none => if k = "length" then .num xs.length else .undefined)
  | _ => .ok .undefined

/-- JavaScript indexed access `v[i]` with a numeric literal index. -/
def jsIndex (v : JsValue) (i : Nat) : Except Unit JsValue :=
  match v with
  | .undefined => .error ()
  | .null => .error ()
  | .arr xs => .ok ((xs.get? i).getD .undefined)
  | .obj fs => .ok (lookupD fs (toString i))
  | _ => .ok .undefined

/-- Coercion used before calling a string method (`.split`, …): in JavaScript
calling a string method on a non-string throws a `TypeError`. -/
def asStr : JsValue → Except Unit String
  | .str s => .ok s
  | _ => .error ()

/-- Accumulator loop for `splitChar`. -/
def splitCharAux (sep : Char) : List Char → List Char → List String
  | [], acc => [String.mk acc.reverse]
  | c :: cs, acc =>
      if c = sep then String.mk acc.reverse :: splitCharAux sep cs []
      else splitCharAux sep cs (c :: acc)

/-- JavaScript `s.split(sep)` for a one-character separator (every `split` in
the source uses a one-character separator).  Never returns the empty list. -/
def splitChar (s : String) (sep : Char) : List String :=
  splitCharAux sep s.toList []

/-- `s.split(sep).pop()`: last segment of `s` split on `sep` (the split of a
string is never the empty list, so `pop` always yields an element). -/
def splitPop (s : String) (sep : Char) : String :=
  (splitChar s sep).getLastD ""

/-- The tag-determination phase of `createFromEvent` restricted to the
`Records` branch: two successive (non-exclusive) `if`s on
`event.Records[0]`; an `eventSource` match overwrites an `EventSource`
match. -/
def recordsTag (r0 : JsValue) : Except Unit String := do
  let t0 := "json"
  let hasES ← jsIn "EventSource" r0
  let t1 ←
    if hasES then do
      let es ← jsGet r0 "EventSource" >>= asStr
      pure (splitPop es ':')
    else pure t0
  let hasEs ← jsIn "eventSource" r0
  if hasEs then do
    let es ← jsGet r0 "eventSource" >>= asStr
    pure (splitPop es ':')
  else pure t1

/-- Predicates 10-11 of the chain (`requestContext.apiId` with and without
`requestContext.http`), with the `json` default.  The lazy `&&` of the source
evaluates `'apiId' in event.requestContext` only when `'requestContext' in
event`, and an error of `'http' in event.requestContext` can only occur when
the `apiId` test already threw, so binding both after the guard is
error-equivalent and value-equivalent to the two `else if` conditions. -/
def apiIdTag (event : JsValue) : Except Unit String := do
  let hasRC ← jsIn "requestContext" event
  let hasApiId ←
    if hasRC then do
      let rc ← jsGet event "requestContext"
      jsIn "apiId" rc
    else pure false
  let hasHttp ←
    if hasRC then do
      let rc ← jsGet event "requestContext"
      jsIn "http" rc
    else pure false
  if hasApiId && hasHttp then pure "api_gateway_http2"
  else if hasApiId then pure "api_gateway_websocket"
  else pure "json"

/-- Predicates 8-9 of the chain (`dynamodb`, `userPoolId`). -/
def dynamoCognitoTag (event : JsValue) : Except Unit String := do
  let hasDyn ← jsIn "dynamodb" event
  if hasDyn then pure "dynamodb"
  else do
    let hasPool ← jsIn "userPoolId" event
    if hasPool then pure "cognito"
    else apiIdTag event

/-- Predicate 7 of the chain (`context["http-method"]`). -/
def noProxyTag (event : JsValue) : Except Unit String := do
  let hasCtx ← jsIn "context" event
  let hasHttpMethodKey ←
    if hasCtx then do
      let c ← jsGet event "context"
      jsIn "http-method" c
    else pure false
  if hasHttpMethodKey then pure "api_gateway_no_proxy"
  else dynamoCognitoTag event

/-- Predicate 6 of the chain (`httpMethod`). -/
def httpMethodTag (event : JsValue) : Except Unit String := do
  let hasHM ← jsIn "httpMethod" event
  if hasHM then pure "api_gateway"
  else noProxyTag event

/-- Predicate 5 of the chain (`requestContext.elb`). -/
def elbTag (event : JsValue) : Except Unit String := do
  let hasRC ← jsIn "requestContext" event
  let hasElb ←
    if hasRC then do
      let rc ← jsGet event "requestContext"
      jsIn "elb" rc
    else pure false
  if hasElb then pure "elastic_load_balancer"
  else httpMethodTag event

/-- Predicates 3-4 of the chain (`source`+`detail-type`+`detail`, then a
truthy `source` whose last dot-segment becomes the tag). -/
def sourceTag (event : JsValue) : Except Unit String := do
  let hasSource ← jsIn "source" event
  let hasDT ← jsIn "detail-type" event
  let hasDetail ← jsIn "detail" event
  if hasSource && hasDT && hasDetail then pure "events"
  else do
    let srcTruthy ←
      if hasSource then do
        let s ← jsGet event "source"
        pure (truthy s)
      else pure false
    if srcTruthy then do
      let s ← jsGet event "source" >>= asStr
      pure (splitPop s '.')
    else elbTag event

/-- The tag-determination phase of `createFromEvent`
(`src/triggers/aws_lambda.js:353-387`): the value of `triggerService` after
the predicate chain, or `error` when the JavaScript evaluation throws.  The
chain is staged into the helper definitions above, preserving the source's
evaluation and short-circuit order. -/
def classifyTag (event : JsValue) : Except Unit String := do
  if truthy event then do
    let hasRecords ← jsIn "Records" event
    if hasRecords then do
      let recs ← jsGet event "Records"
      let r0 ← jsIndex recs 0
      recordsTag r0
    else sourceTag event
  else pure "json"

/-- The closed tag enumeration: the keys of `resourceTypeToFactoryMap`. -/
def tagEnum : List String :=
  ["s3", "json", "kinesis", "events", "sns", "sqs", "api_gateway",
   "api_gateway_no_proxy", "api_gateway_websocket", "api_gateway_http2",
   "dynamodb", "elastic_load_balancer", "cognito"]

/-- List-join with a comma, as JavaScript `Array.prototype.join(",")` and the
separator-free default of `JSON.stringify`. -/
def joinComma : List String → String
  | [] => ""
  | [s] => s
  | s :: rest => s ++ "," ++ joinComma rest

/-- Escape of one character inside a serialized JSON string (quotes and
backslashes; no control characters occur in the inputs considered). -/
def escChar (c : Char) : String :=
  if c = '\"' then "\\\"" else if c = '\\' then "\\\\" else String.mk [c]

/-- Escape a string for JSON serialization. -/
def escapeStr (s : String) : String := String.join (s.toList.map escChar)

/-- A serialized JSON string literal. -/
def serStr (s : String) : String := "\"" ++ escapeStr s ++ "\""

mutual

/-- Model of `JSON.stringify` output text (no spacing), over `JsValue`:
`undefined` serializes as `null` inside arrays and object members holding
`undefined` are omitted, as in JavaScript. -/
def ser : JsValue → String
  | .undefined => "null"
  | .null => "null"
  | .bool b => if b then "true" else "false"
  | .num n => toString n
  | .str s => serStr s
  | .arr xs => "[" ++ joinComma (serElems xs) ++ "]"
  | .obj fs => "\x7b" ++ joinComma (serMembers fs) ++ "\x7d"

/-- Serialized array elements. -/
def serElems : List JsValue → List String
  | [] => []
  | v :: rest => ser v :: serElems rest

/-- Serialized object members; members with `undefined` values are omitted. -/
def serMembers : List (String × JsValue) → List String
  | [] => []
  | (_, .undefined) :: rest => serMembers rest
  | (k, v) :: rest => (serStr k ++ ":" ++ ser v) :: serMembers rest

end

/-- Lexicographic code-unit comparison of character lists (the default
JavaScript sort order on keys). -/
def charsLe : List Char → List Char → Bool
  | [], _ => true
  | _ :: _, [] => false
  | a :: as, b :: bs =>
      if a.val < b.val then true
      else if b.val < a.val then false
      else charsLe as bs

/-- Lexicographic code-unit comparison of strings. -/
def strLe (a b : String) : Bool := charsLe a.toList b.toList

/-- Insertion into a key-sorted field list (stable for equal keys). -/
def insertField (p : String × JsValue) : List (String × JsValue) → List (String × JsValue)
  | [] => [p]
  | q :: qs => if strLe p.1 q.1 then p :: q :: qs else q :: insertField p qs

/-- Insertion sort of object fields by key. -/
def sortFields : List (String × JsValue) → List (String × JsValue)
  | [] => []
  | p :: ps => insertField p (sortFields ps)

mutual

/-- Recursively sort every object's fields by key: the canonical form whose
serialization `JSON.sortify` (the `json.sortify` package) produces. -/
def canon : JsValue → JsValue
  | .obj fs => .obj (sortFields (canonFields fs))
  | .arr xs => .arr (canonElems xs)
  | .undefined => .undefined
  | .null => .null
  | .bool b => .bool b
  | .num n => .num n
  | .str s => .str s

/-- `canon` mapped over object fields (before sorting). -/
def canonFields : List (String × JsValue) → List (String × JsValue)
  | [] => []
  | (k, v) :: rest => (k, canon v) :: canonFields rest

/-- `canon` mapped over array elements. -/
def canonElems : List JsValue → List JsValue
  | [] => []
  | v :: rest => canon v :: canonElems rest

end

/-- Model of `JSON.sortify` (the `json.sortify` package required at the top of
the source): deterministic JSON serialization with object keys sorted at every
level. -/
def sortify (v : JsValue) : String := ser (canon v)

/-- Decimal digits to a number (shared by the JSON-number and the
attribute-value `N` decodings). -/
def digitsToNat : List Char → Nat → Nat
  | [], acc => acc
  | c :: cs, acc => digitsToNat cs (acc * 10 + (c.toNat - 48))

/-- Numeric string to integer (the JavaScript `Number` conversion restricted
to the integral strings that occur here). -/
def strToInt (s : String) : Int :=
  match s.toList with
  | '-' :: ds => -((digitsToNat ds 0 : Nat) : Int)
  | ds => ((digitsToNat ds 0 : Nat) : Int)

mutual

/-- Model of one attribute value decoded by the external
`AWS.DynamoDB.Converter.unmarshall` (aws-sdk): `S`/`N`/`BOOL`/`NULL` scalars
and nested `M` maps and `L` lists. -/
def decodeAttrVal : JsValue → JsValue
  | .obj [("S", .str s)] => .str s
  | .obj [("N", .str n)] => .num (strToInt n)
  | .obj [("BOOL", .bool b)] => .bool b
  | .obj [("NULL", _)] => .null
  | .obj [("M", .obj fs)] => .obj (decodeAttrFields fs)
  | .obj [("L", .arr xs)] => .arr (decodeAttrElems xs)
  | _ => .undefined

/-- `decodeAttrVal` over the members of an `M` map. -/
def decodeAttrFields : List (String × JsValue) → List (String × JsValue)
  | [] => []
  | (k, v) :: rest => (k, decodeAttrVal v) :: decodeAttrFields rest

/-- `decodeAttrVal` over the elements of an `L` list. -/
def decodeAttrElems : List JsValue → List JsValue
  | [] => []
  | v :: rest => decodeAttrVal v :: decodeAttrElems rest

end

/-- Model of the external `AWS.DynamoDB.Converter.unmarshall` (aws-sdk): maps
an attribute-value-encoded item to the decoded plain object. -/
def unmarshall : JsValue → JsValue
  | .obj fs => .obj (decodeAttrFields fs)
  | _ => .obj []

mutual

/-- JavaScript string coercion (template literals `${...}` in the source):
`undefined` → "undefined", arrays join their elements with commas
(null/undefined elements become empty), objects → "[object Object]". -/
def jsToString : JsValue → String
  | .undefined => "undefined"
  | .null => "null"
  | .bool b => if b then "true" else "false"
  | .num n => toString n
  | .str s => s
  | .arr xs => joinComma (jsToStringElems xs)
  | .obj _ => "[object Object]"

/-- `jsToString` over array elements, with the `Array.prototype.join`
convention that null/undefined become the empty string. -/
def jsToStringElems : List JsValue → List String
  | [] => []
  | .undefined :: rest => "" :: jsToStringElems rest
  | .null :: rest => "" :: jsToStringElems rest
  | v :: rest => jsToString v :: jsToStringElems rest

end

/-- `JSON.stringify` as a value: `undefined` input yields `undefined` (not a
string), any other value yields its serialization text. -/
def jsStringify : JsValue → JsValue
  | .undefined => .undefined
  | v => .str (ser v)

/-- JavaScript strict equality of a value with a string literal
(`record.eventName === 'REMOVE'`). -/
def isStrEq (v : JsValue) (s : String) : Bool :=
  match v with
  | .str t => t = s
  | _ => false

/-- `.map` on a value: throws unless the value is an array. -/
def asArr : JsValue → Except Unit (List JsValue)
  | .arr xs => .ok xs
  | _ => .error ()

/-- JavaScript `s.replace(pat, '')` for a plain-string pattern: removes the
first occurrence of `pat` only. -/
def dropPre : List Char → List Char → Option (List Char)
  | [], cs => some cs
  | _ :: _, [] => none
  | p :: ps, c :: cs => if c = p then dropPre ps cs else none

/-- Character-level worker for `jsReplaceFirst`. -/
def replaceFirstChars (pat : List Char) : List Char → List Char
  | [] => []
  | c :: cs =>
      match dropPre pat (c :: cs) with
      | some rest => rest
      | none => c :: replaceFirstChars pat cs

/-- JavaScript `s.replace(pat, '')` (first occurrence only). -/
def jsReplaceFirst (s pat : String) : String :=
  String.mk (replaceFirstChars pat.toList s.toList)

/-- JSON whitespace. -/
def isWsChar (c : Char) : Bool := c = ' ' ∨ c = '\n' ∨ c = '\t' ∨ c = '\r'

/-- Drop leading JSON whitespace. -/
def skipWs : List Char → List Char
  | [] => []
  | c :: cs => if isWsChar c then skipWs cs else c :: cs

/-- Unescape of one escaped character inside a JSON string literal. -/
def unescChar (c : Char) : Char :=
  if c = 'n' then '\n' else if c = 't' then '\t' else if c = 'r' then '\r' else c

/-- Parse the remainder of a JSON string literal (after the opening quote). -/
def parseStringRest : List Char → Option (String × List Char)
  | [] => none
  | '\\' :: d :: ds =>
      match parseStringRest ds with
      | some (s, rest) => some (String.mk [unescChar d] ++ s, rest)
      | none => none
  | c :: cs =>
      if c = '\"' then some ("", cs)
      else
        match parseStringRest cs with
        | some (s, rest) => some (String.mk [c] ++ s, rest)
        | none => none

/-- Expect a fixed character sequence. -/
def expectChars : List Char → List Char → Option (List Char)
  | [], cs => some cs
  | _ :: _, [] => none
  | p :: ps, c :: cs => if c = p then expectChars ps cs else none

/-- Parse a JSON integer number (fractions and exponents are outside the
value domain of this embedding and are rejected). -/
def parseNumRest (cs : List Char) : Option (JsValue × List Char) :=
  let parts :=
    match cs with
    | '-' :: rest => (true, rest)
    | _ => (false, cs)
  let ds := parts.2.takeWhile (fun c => c.isDigit)
  let rest := parts.2.dropWhile (fun c => c.isDigit)
  if ds.isEmpty then none
  else
    match rest with
    | '.' :: _ => none
    | 'e' :: _ => none
    | 'E' :: _ => none
    | _ =>
        let n : Int := (digitsToNat ds 0 : Nat)
        some (.num (if parts.1 then -n else n), rest)

mutual

/-- Recursive-descent JSON value parser (fuel bounds nesting). -/
def parseVal : Nat → List Char → Option (JsValue × List Char)
  | 0, _ => none
  | fuel + 1, cs =>
    match skipWs cs with
    | [] => none
    | c :: rest =>
      if c = '\"' then
        match parseStringRest rest with
        | some (s, rest2) => some (.str s, rest2)
        | none => none
      else if c = '\x7b' then
        match skipWs rest with
        | '\x7d' :: rest2 => some (.obj [], rest2)
        | rest2 =>
            match parseMembers fuel rest2 with
            | some (fs, rest3) => some (.obj fs, rest3)
            | none => none
      else if c = '[' then
        match skipWs rest with
        | ']' :: rest2 => some (.arr [], rest2)
        | rest2 =>
            match parseElems fuel rest2 with
            | some (xs, rest3) => some (.arr xs, rest3)
            | none => none
      else if c = 't' then
        match expectChars ['r', 'u', 'e'] rest with
        | some rest2 => some (.bool true, rest2)
        | none => none
      else if c = 'f' then
        match expectChars ['a', 'l', 's', 'e'] rest with
        | some rest2 => some (.bool false, rest2)
        | none => none
      else if c = 'n' then
        match expectChars ['u', 'l', 'l'] rest with
        | some rest2 => some (.null, rest2)
        | none => none
      else parseNumRest (c :: rest)

/-- Object members after the opening brace (at the first key's quote). -/
def parseMembers : Nat → List Char → Option (List (String × JsValue) × List Char)
  | 0, _ => none
  | fuel + 1, cs =>
    match cs with
    | '\"' :: rest =>
      (match parseStringRest rest with
       | some (k, rest2) =>
         (match skipWs rest2 with
          | ':' :: rest3 =>
            (match parseVal fuel rest3 with
             | some (v, rest4) =>
               (match skipWs rest4 with
                | ',' :: rest5 =>
                  (match parseMembers fuel (skipWs rest5) with
                   | some (fs, rest6) => some ((k, v) :: fs, rest6)
                   | none => none)
                | '\x7d' :: rest5 => some ([(k, v)], rest5)
                | _ => none)
             | none => none)
          | _ => none)
       | none => none)
    | _ => none

/-- Array elements after the opening bracket. -/
def parseElems : Nat → List Char → Option (List JsValue × List Char)
  | 0, _ => none
  | fuel + 1, cs =>
    match parseVal fuel cs with
    | some (v, rest) =>
      (match skipWs rest with
       | ',' :: rest2 =>
         (match parseElems fuel rest2 with
          | some (xs, rest3) => some (v :: xs, rest3)
          | none => none)
       | ']' :: rest2 => some ([v], rest2)
       | _ => none)
    | none => none

end

/-- Model of `JSON.parse` over this value domain; `none` where `JSON.parse`
throws a `SyntaxError`. -/
def parseJson (s : String) : Option JsValue :=
  match parseVal (2 * s.length + 8) s.toList with
  | some (v, rest) => if (skipWs rest).isEmpty then some v else none
  | none => none

/-- The invocation context; the only field the source reads is
`functionName`. -/
structure Ctx where
  functionName : String

/-- The fields of the protobuf trigger `Event` that the source writes
(`setId`, resource name/operation/type, the two metadata channels and the
common fields). -/
structure Trigger where
  id : JsValue
  resourceName : JsValue
  resourceOperation : JsValue
  resourceType : String
  annotations : List (String × JsValue)
  payloadMeta : List (String × JsValue)
  startTime : Nat
  duration : Nat
  origin : String
  errorCodeOk : Bool

/-- The fresh trigger shell built by `createFromEvent` before dispatching. -/
def blankTrigger : Trigger :=
  { id := .undefined, resourceName := .undefined, resourceOperation := .undefined,
    resourceType := "", annotations := [], payloadMeta := [],
    startTime := 0, duration := 0, origin := "", errorCodeOk := false }

/-- External dependencies of the source module, injected: `uuid4()` draws,
the capture timestamp, `config.getConfig().metadataOnly`, availability of the
optional aws-sdk (`tryRequire`), the external `md5` function (used only
congruently), and `resourceUtils.getSNSTrigger`.  The last one is repository
code not included under src: modelled from the spec as an abstract scan of
the records for an embedded SNS-originated message. -/
structure Env where
  uuid : String
  now : Nat
  metadataOnly : Bool
  awsAvailable : Bool
  md5f : String → String
  snsLookup : List JsValue → Option JsValue

/-- Modelled from the spec: `eventInterface.addToMetadata` (event.js, not
under src) attaches annotation entries and payload-channel entries to the
trigger's two metadata channels. -/
def addToMetadata (t : Trigger) (ann pay : List (String × JsValue)) : Trigger :=
  { t with annotations := t.annotations ++ ann,
           payloadMeta := t.payloadMeta ++ pay }

/-- Modelled from the spec: `utils.truncateMessage` (utils.js, not under
src): a payload-channel string longer than the maximum is cut to the maximum
number of units with a marker appended. -/
def truncateMessage (msg : String) (maxLen : Nat) : String :=
  if msg.length > maxLen then String.mk (msg.toList.take maxLen) ++ "..." else msg

/-- `truncateMessage` applied to an arbitrary value: only a string has a
`.length` that can exceed the cap, any other value is returned unchanged. -/
def truncateMessageJs (v : JsValue) (maxLen : Nat) : JsValue :=
  match v with
  | .str s => .str (truncateMessage s maxLen)
  | w => w

/-- `MAX_SQS_BODY_LENGTH` (1K). -/
def MAX_SQS_BODY_LENGTH : Nat := 1 * 1024

/-- `fillCommonFields` (src/triggers/aws_lambda.js:22-28). -/
def fillCommonFields (t : Trigger) (resourceType : String) (now : Nat) : Trigger :=
  { t with startTime := now, duration := 0, origin := "trigger",
           resourceType := resourceType, errorCodeOk := true }

/-- `createJSONTrigger` (src/triggers/aws_lambda.js:36-44). -/
def createJSONTrigger (env : Env) (event : JsValue) (context : Ctx) (t : Trigger) :
    Except Unit Trigger :=
  .ok (addToMetadata
    { t with id := .str ("trigger-" ++ env.uuid),
             resourceName := .str ("trigger-" ++ context.functionName),
             resourceOperation := .str "Event" }
    [] [("data", event)])

/-- `createS3Trigger` (src/triggers/aws_lambda.js:51-65). -/
def createS3Trigger (env : Env) (event : JsValue) (context : Ctx) (t : Trigger) :
    Except Unit Trigger := do
  let recs ← jsGet event "Records"
  let r0 ← jsIndex recs 0
  let respEl ← jsGet r0 "responseElements"
  let reqId ← jsGet respEl "x-amz-request-id"
  let s3v ← jsGet r0 "s3"
  let bucket ← jsGet s3v "bucket"
  let bname ← jsGet bucket "name"
  let ename ← jsGet r0 "eventName"
  let region ← jsGet r0 "awsRegion"
  let reqParams ← jsGet r0 "requestParameters"
  let userId ← jsGet r0 "userIdentity"
  let objv ← jsGet s3v "object"
  let okey ← jsGet objv "key"
  let osize ← jsGet objv "size"
  let oetag ← jsGet objv "eTag"
  let reqId2 ← jsGet respEl "x-amz-request-id"
  pure (addToMetadata
    { t with id := reqId, resourceName := bname, resourceOperation := ename }
    [("region", .str (jsToString region)),
     ("request_parameters", jsStringify reqParams),
     ("user_identity", jsStringify userId),
     ("object_key", .str (jsToString okey)),
     ("object_size", .str (jsToString osize)),
     ("object_etag", .str (jsToString oetag)),
     ("x-amz-request-id", .str (jsToString reqId2))] [])

/-- `createKinesisTrigger` (src/triggers/aws_lambda.js:72-84). -/
def createKinesisTrigger (env : Env) (event : JsValue) (context : Ctx) (t : Trigger) :
    Except Unit Trigger := do
  let recs ← jsGet event "Records"
  let r0 ← jsIndex recs 0
  let eid ← jsGet r0 "eventID"
  let arn ← jsGet r0 "eventSourceARN" >>= asStr
  let en ← jsGet r0 "eventName" >>= asStr
  let region ← jsGet r0 "awsRegion"
  let iid ← jsGet r0 "invokeIdentityArn"
  let kin ← jsGet r0 "kinesis"
  let seq ← jsGet kin "sequenceNumber"
  let pk ← jsGet kin "partitionKey"
  let len ← jsGet recs "length"
  pure (addToMetadata
    { t with id := eid, resourceName := .str (splitPop arn '/'),
             resourceOperation := .str (jsReplaceFirst en "aws:kinesis:") }
    [("region", region), ("invoke_identity", iid), ("sequence_number", seq),
     ("partition_key", pk), ("total_record_count", len)] [])

/-- `arn.split(':').slice(-2)[0]`: the element at index `length - 2`
(clamped to 0 when the split has a single segment). -/
def secondToLast (xs : List String) : String := xs.getD (xs.length - 2) ""

/-- `createSNSTrigger` (src/triggers/aws_lambda.js:91-102). -/
def createSNSTrigger (env : Env) (event : JsValue) (context : Ctx) (t : Trigger) :
    Except Unit Trigger := do
  let recs ← jsGet event "Records"
  let r0 ← jsIndex recs 0
  let sns ← jsGet r0 "Sns"
  let mid ← jsGet sns "MessageId"
  let arn ← jsGet r0 "EventSubscriptionArn" >>= asStr
  let ty ← jsGet sns "Type"
  let subj ← jsGet sns "Subject"
  let msg ← jsGet sns "Message"
  let mattrs ← jsGet sns "MessageAttributes"
  pure (addToMetadata
    { t with id := mid, resourceName := .str (secondToLast (splitChar arn ':')),
             resourceOperation := ty }
    [("Notification Subject", subj)]
    [("Notification Message", msg), ("Notification Message Attributes", mattrs)])

/-- One entry of the SQS per-record list (the function mapped over
`event.Records` at src/triggers/aws_lambda.js:117-128). -/
def sqsRecordEntry (metadataOnly : Bool) (r : JsValue) : Except Unit JsValue := do
  let md5b ← jsGet r "md5OfBody"
  let mid ← jsGet r "messageId"
  if metadataOnly then
    pure (.obj [("MD5 Of Message Body", md5b), ("Message ID", mid)])
  else do
    let body ← jsGet r "body"
    let bodyVal := if truthy body then body else .str "\x7b\x7d"
    let attrs ← jsGet r "attributes"
    let mattrs ← jsGet r "messageAttributes"
    pure (.obj [("MD5 Of Message Body", md5b), ("Message ID", mid),
      ("Message Body", truncateMessageJs bodyVal MAX_SQS_BODY_LENGTH),
      ("Attributes", attrs), ("Message Attributes", mattrs)])

/-- `sqsRecordEntry` over the whole record list. -/
def sqsRecordEntries (metadataOnly : Bool) : List JsValue → Except Unit (List JsValue)
  | [] => .ok []
  | r :: rest => do
      let e ← sqsRecordEntry metadataOnly r
      let es ← sqsRecordEntries metadataOnly rest
      pure (e :: es)

/-- The try/catch block of `createSQSTrigger`
(src/triggers/aws_lambda.js:131-141): parse the first record's body; on an
`input.Epsagon` sub-object (both truthy) yield it; a parse failure or a
property access throwing inside the `try` is caught and yields nothing. -/
def sqsStepsDict (bodyVal : JsValue) : Option JsValue :=
  match parseJson (jsToString bodyVal) with
  | none => none
  | some mb =>
    match (jsGet mb "input").toOption with
    | none => none
    | some inp =>
      if truthy inp then
        match (jsGet inp "Epsagon").toOption with
        | none => none
        | some ep => if truthy ep then some ep else none
      else none

/-- `createSQSTrigger` (src/triggers/aws_lambda.js:110-147). -/
def createSQSTrigger (env : Env) (event : JsValue) (context : Ctx) (t : Trigger) :
    Except Unit Trigger := do
  let recs ← jsGet event "Records"
  let r0 ← jsIndex recs 0
  let mid ← jsGet r0 "messageId"
  let arn ← jsGet r0 "eventSourceARN" >>= asStr
  let name := (splitChar arn ':').getLastD ""
  let body0 ← jsGet r0 "body"
  let sqsMessageBody := if truthy body0 then body0 else .str "\x7b\x7d"
  let elems ← asArr recs
  let entries ← sqsRecordEntries env.metadataOnly elems
  let t1 := addToMetadata
    { t with id := mid, resourceName := .str name,
             resourceOperation := .str "ReceiveMessage" }
    [("record", .arr entries), ("total_record_count", .num (elems.length : Int))] []
  let t2 :=
    match sqsStepsDict sqsMessageBody with
    | some sd => addToMetadata t1 [("steps_dict", sd)] []
    | none => t1
  let t3 :=
    match env.snsLookup elems with
    | some snsData => addToMetadata t2 [("SNS Trigger", snsData)] []
    | none => t2
  pure t3

/-- `createAPIGatewayTrigger` (src/triggers/aws_lambda.js:154-169). -/
def createAPIGatewayTrigger (env : Env) (event : JsValue) (context : Ctx) (t : Trigger) :
    Except Unit Trigger := do
  let rc ← jsGet event "requestContext"
  let reqId ← jsGet rc "requestId"
  let headers ← jsGet event "headers"
  let host ← jsGet headers "Host"
  let name ← if truthy host then pure host else jsGet rc "apiId"
  let hm ← jsGet event "httpMethod"
  let stage ← jsGet rc "stage"
  let qsp ← jsGet event "queryStringParameters"
  let pp ← jsGet event "pathParameters"
  let res ← jsGet event "resource"
  let body ← jsGet event "body"
  pure (addToMetadata
    { t with id := reqId, resourceName := name, resourceOperation := hm }
    [("stage", stage), ("query_string_parameters", qsp),
     ("path_parameters", pp), ("path", res)]
    [("body", body), ("headers", headers), ("requestContext", rc)])

/-- `createAPIGatewayHTTPV2Trigger` (src/triggers/aws_lambda.js:176-192). -/
def createAPIGatewayHTTPV2Trigger (env : Env) (event : JsValue) (context : Ctx)
    (t : Trigger) : Except Unit Trigger := do
  let rc ← jsGet event "requestContext"
  let reqId ← jsGet rc "requestId"
  let headers ← jsGet event "headers"
  let host ← jsGet headers "Host"
  let name ← if truthy host then pure host else jsGet rc "domainName"
  let http ← jsGet rc "http"
  let method ← jsGet http "method"
  let stage ← jsGet rc "stage"
  let qsp ← jsGet event "queryStringParameters"
  let pp ← jsGet event "pathParameters"
  let path ← jsGet http "path"
  let apiId ← jsGet rc "apiId"
  let body ← jsGet event "body"
  pure (addToMetadata
    { t with id := reqId, resourceName := name, resourceOperation := method }
    [("stage", stage), ("query_string_parameters", qsp),
     ("path_parameters", pp), ("path", path), ("aws.api_gateway.api_id", apiId)]
    [("body", body), ("headers", headers), ("requestContext", rc)])

/-- `createNoProxyAPIGatewayTrigger` (src/triggers/aws_lambda.js:199-213). -/
def createNoProxyAPIGatewayTrigger (env : Env) (event : JsValue) (context : Ctx)
    (t : Trigger) : Except Unit Trigger := do
  let c ← jsGet event "context"
  let reqId ← jsGet c "request-id"
  let params ← jsGet event "params"
  let header ← jsGet params "header"
  let host ← jsGet header "Host"
  let name ← if truthy host then pure host else jsGet c "api-id"
  let hm ← jsGet c "http-method"
  let stage ← jsGet c "stage"
  let qs ← jsGet params "querystring"
  let pp ← jsGet params "path"
  let rp ← jsGet c "resource-path"
  let body ← jsGet event "body-json"
  pure (addToMetadata
    { t with id := reqId, resourceName := name, resourceOperation := hm }
    [("stage", stage), ("query_string_parameters", qs),
     ("path_parameters", pp), ("path", rp)]
    [("body", body), ("headers", header)])

/-- `createWebSocketTrigger` (src/triggers/aws_lambda.js:220-235). -/
def createWebSocketTrigger (env : Env) (event : JsValue) (context : Ctx) (t : Trigger) :
    Except Unit Trigger := do
  let rc ← jsGet event "requestContext"
  let reqId ← jsGet rc "requestId"
  let dn ← jsGet rc "domainName"
  let et ← jsGet rc "eventType"
  let op := if truthy et then et else JsValue.str "CONNECT"
  let stage ← jsGet rc "stage"
  let routeKey ← jsGet rc "routeKey"
  let msgId ← jsGet rc "messageId"
  let connId ← jsGet rc "connectionId"
  let reqId2 ← jsGet rc "requestId"
  let dir ← jsGet rc "messageDirection"
  let body ← jsGet event "body"
  pure (addToMetadata
    { t with id := reqId, resourceName := dn, resourceOperation := op }
    [("stage", stage), ("route_key", routeKey), ("message_id", msgId),
     ("connection_id", connId), ("request_id", reqId2),
     ("message_direction", dir)]
    [("body", body)])

/-- `createEventsTrigger` (src/triggers/aws_lambda.js:242-256). -/
def createEventsTrigger (env : Env) (event : JsValue) (context : Ctx) (t : Trigger) :
    Except Unit Trigger := do
  let eid ← jsGet event "id"
  let resources ← jsGet event "resources"
  let res0 ← jsIndex resources 0
  let name :=
    match res0 with
    | .str s => splitPop s '/'
    | _ => "CloudWatch Events"
  let dt ← jsGet event "detail-type"
  let region ← jsGet event "region"
  let detail ← jsGet event "detail"
  let account ← jsGet event "account"
  pure (addToMetadata
    { t with id := eid, resourceName := .str name, resourceOperation := dt }
    [("region", region), ("detail", jsStringify detail), ("account", account)] [])

/-- The item hash of `createDynamoDBTrigger` when the aws-sdk is available
(src/triggers/aws_lambda.js:267-275): a `REMOVE` event hashes the decoded
key attributes only, any other event the decoded full new image; the decoded
item is canonicalized by `JSON.sortify` and hashed with `md5`. -/
def dynamoItemHash (md5f : String → String) (r0 : JsValue) : Except Unit String := do
  let en ← jsGet r0 "eventName"
  let dyn ← jsGet r0 "dynamodb"
  if isStrEq en "REMOVE" then do
    let keys ← jsGet dyn "Keys"
    pure (md5f (sortify (unmarshall keys)))
  else do
    let ni ← jsGet dyn "NewImage"
    pure (md5f (sortify (unmarshall ni)))

/-- `createDynamoDBTrigger` (src/triggers/aws_lambda.js:263-287). -/
def createDynamoDBTrigger (env : Env) (event : JsValue) (context : Ctx) (t : Trigger) :
    Except Unit Trigger := do
  let recs ← jsGet event "Records"
  let r0 ← jsIndex recs 0
  let itemHash ← if env.awsAvailable then dynamoItemHash env.md5f r0 else pure ""
  let eid ← jsGet r0 "eventID"
  let arn ← jsGet r0 "eventSourceARN" >>= asStr
  let name :=
    match (splitChar arn '/').get? 1 with
    | some s => JsValue.str s
    | none => JsValue.undefined
  let en ← jsGet r0 "eventName"
  let region ← jsGet r0 "awsRegion"
  let dyn ← jsGet r0 "dynamodb"
  let seq ← jsGet dyn "SequenceNumber"
  let len ← jsGet recs "length"
  pure (addToMetadata
    { t with id := eid, resourceName := name, resourceOperation := en }
    [("region", region), ("sequence_number", seq),
     ("item_hash", .str itemHash), ("total_record_count", len)]
    [("data", jsStringify recs)])

/-- `createElbTrigger` (src/triggers/aws_lambda.js:294-307). -/
def createElbTrigger (env : Env) (event : JsValue) (context : Ctx) (t : Trigger) :
    Except Unit Trigger := do
  let headers ← jsGet event "headers"
  let host ← jsGet headers "host"
  let hm ← jsGet event "httpMethod"
  let qsp ← jsGet event "queryStringParameters"
  let rc ← jsGet event "requestContext"
  let elb ← jsGet rc "elb"
  let tga ← jsGet elb "targetGroupArn"
  let path ← jsGet event "path"
  let body ← jsGet event "body"
  pure (addToMetadata
    { t with id := .str ("elb-" ++ env.uuid), resourceName := host,
             resourceOperation := hm }
    [("query_string_parameters", jsStringify qsp),
     ("target_group_arn", tga), ("path", path)]
    [("body", jsStringify body), ("headers", jsStringify headers)])

/-- `createCognitoTrigger` (src/triggers/aws_lambda.js:315-328). -/
def createCognitoTrigger (env : Env) (event : JsValue) (context : Ctx) (t : Trigger) :
    Except Unit Trigger := do
  let pool ← jsGet event "userPoolId"
  let tsrc ← jsGet event "triggerSource"
  let uname ← jsGet event "userName"
  let region ← jsGet event "region"
  let cc ← jsGet event "callerContext"
  let req ← jsGet event "request"
  let resp ← jsGet event "response"
  pure (addToMetadata
    { t with id := .str ("cognito-" ++ env.uuid), resourceName := pool,
             resourceOperation := tsrc }
    [("username", uname), ("region", region)]
    [("caller_context", cc), ("request", req), ("response", resp)])

/-- The type of the registered extractor factories. -/
def Factory : Type := Env → JsValue → Ctx → Trigger → Except Unit Trigger

/-- `resourceTypeToFactoryMap` (src/triggers/aws_lambda.js:330-344) as a
lookup: `none` models the `undefined` of an absent key. -/
def registryLookup : String → Option Factory
  | "s3" => some createS3Trigger
  | "json" => some createJSONTrigger
  | "kinesis" => some createKinesisTrigger
  | "events" => some createEventsTrigger
  | "sns" => some createSNSTrigger
  | "sqs" => some createSQSTrigger
  | "api_gateway" => some createAPIGatewayTrigger
  | "api_gateway_no_proxy" => some createNoProxyAPIGatewayTrigger
  | "api_gateway_websocket" => some createWebSocketTrigger
  | "api_gateway_http2" => some createAPIGatewayHTTPV2Trigger
  | "dynamodb" => some createDynamoDBTrigger
  | "elastic_load_balancer" => some createElbTrigger
  | "cognito" => some createCognitoTrigger
  | _ => none

/-- `createFromEvent` (src/triggers/aws_lambda.js:353-395): classify, look the
tag up in the factory map (calling the `undefined` of a missing tag throws),
run the factory on a blank trigger, then fill the common fields. -/
def createFromEvent (env : Env) (event : JsValue) (context : Ctx) :
    Except Unit Trigger := do
  let tag ← classifyTag event
  match registryLookup tag with
  | none => .error ()
  | some f => do
      let t ← f env event context blankTrigger
      pure (fillCommonFields t tag env.now)

/-- Values on which the `in` operator and property access are exception-free. -/
def objOrArr : JsValue → Bool
  | .obj _ => true
  | .arr _ => true
  | _ => false

/-- Total counterpart of `jsGet` (`undefined` where `jsGet` throws). -/
def jlook (v : JsValue) (k : String) : JsValue :=
  match jsGet v k with
  | .ok w => w
  | .error _ => .undefined

/-- Total counterpart of `jsIndex` (`undefined` where `jsIndex` throws). -/
def jidx (v : JsValue) (i : Nat) : JsValue :=
  match jsIndex v i with
  | .ok w => w
  | .error _ => .undefined

theorem jsIn_ok (k : String) (v : JsValue) (h : objOrArr v = true) :
    jsIn k v = .ok (hasKeyB v k) := by
  cases v <;> simp_all [jsIn, objOrArr]

theorem jsGet_ok (k : String) (v : JsValue) (h : objOrArr v = true) :
    jsGet v k = .ok (jlook v k) := by
  cases v <;> simp_all [jsGet, jlook, objOrArr]

theorem jsIndex_ok (i : Nat) (v : JsValue) (h : objOrArr v = true) :
    jsIndex v i = .ok (jidx v i) := by
  cases v <;> simp_all [jsIndex, jidx, objOrArr]

theorem apiIdTag_ok (event : JsValue) (hobj : objOrArr event = true)
    (hrc : hasKeyB event "requestContext" = true →
      objOrArr (jlook event "requestContext") = true) :
    ∃ t, apiIdTag event = .ok t := by
  unfold apiIdTag
  simp only [jsIn_ok _ _ hobj, jsGet_ok _ _ hobj, bind, Except.bind]
  cases hRC : hasKeyB event "requestContext" with
  | true =>
    simp only [if_true, jsIn_ok _ _ (hrc hRC)]
    cases hasKeyB (jlook event "requestContext") "apiId" <;>
      cases hasKeyB (jlook event "requestContext") "http" <;>
      exact ⟨_, rfl⟩
  | false => exact ⟨_, rfl⟩

theorem dynamoCognitoTag_ok (event : JsValue) (hobj : objOrArr event = true)
    (hrc : hasKeyB event "requestContext" = true →
      objOrArr (jlook event "requestContext") = true) :
    ∃ t, dynamoCognitoTag event = .ok t := by
  unfold dynamoCognitoTag
  simp only [jsIn_ok _ _ hobj, bind, Except.bind]
  cases hasKeyB event "dynamodb"
  case true => exact ⟨_, rfl⟩
  case false =>
    cases hasKeyB event "userPoolId"
    case true => exact ⟨_, rfl⟩
    case false =>
      simpa using apiIdTag_ok event hobj hrc

theorem noProxyTag_ok (event : JsValue) (hobj : objOrArr event = true)
    (hrc : hasKeyB event "requestContext" = true →
      objOrArr (jlook event "requestContext") = true)
    (hctx : hasKeyB event "context" = true →
      objOrArr (jlook event "context") = true) :
    ∃ t, noProxyTag event = .ok t := by
  unfold noProxyTag
  simp only [jsIn_ok _ _ hobj, jsGet_ok _ _ hobj, bind, Except.bind]
  cases hC : hasKeyB event "context" with
  | true =>
    simp only [if_true, jsIn_ok _ _ (hctx hC)]
    cases hasKeyB (jlook event "context") "http-method"
    case true => exact ⟨_, rfl⟩
    case false => simpa using dynamoCognitoTag_ok event hobj hrc
  | false =>
    simp only [Bool.false_eq_true, if_false]
    simpa using dynamoCognitoTag_ok event hobj hrc

theorem httpMethodTag_ok (event : JsValue) (hobj : objOrArr event = true)
    (hrc : hasKeyB event "requestContext" = true →
      objOrArr (jlook event "requestContext") = true)
    (hctx : hasKeyB event "context" = true →
      objOrArr (jlook event "context") = true) :
    ∃ t, httpMethodTag event = .ok t := by
  unfold httpMethodTag
  simp only [jsIn_ok _ _ hobj, bind, Except.bind]
  cases hasKeyB event "httpMethod"
  case true => exact ⟨_, rfl⟩
  case false => simpa using noProxyTag_ok event hobj hrc hctx

theorem elbTag_ok (event : JsValue) (hobj : objOrArr event = true)
    (hrc : hasKeyB event "requestContext" = true →
      objOrArr (jlook event "requestContext") = true)
    (hctx : hasKeyB event "context" = true →
      objOrArr (jlook event "context") = true) :
    ∃ t, elbTag event = .ok t := by
  unfold elbTag
  simp only [jsIn_ok _ _ hobj, jsGet_ok _ _ hobj, bind, Except.bind]
  cases hRC : hasKeyB event "requestContext" with
  | true =>
    simp only [if_true, jsIn_ok _ _ (hrc hRC)]
    cases hasKeyB (jlook event "requestContext") "elb"
    case true => exact ⟨_, rfl⟩
    case false => simpa using httpMethodTag_ok event hobj hrc hctx
  | false =>
    simp only [Bool.false_eq_true, if_false]
    simpa using httpMethodTag_ok event hobj hrc hctx

theorem sourceTag_ok (event : JsValue) (hobj : objOrArr event = true)
    (hsrc : hasKeyB event "source" = true → truthy (jlook event "source") = true →
      ∃ s, jlook event "source" = .str s)
    (hrc : hasKeyB event "requestContext" = true →
      objOrArr (jlook event "requestContext") = true)
    (hctx : hasKeyB event "context" = true →
      objOrArr (jlook event "context") = true) :
    ∃ t, sourceTag event = .ok t := by
  unfold sourceTag
  simp only [jsIn_ok _ _ hobj, jsGet_ok _ _ hobj, bind, Except.bind]
  cases hS : hasKeyB event "source" with
  | true =>
    cases hasKeyB event "detail-type" <;> cases hasKeyB event "detail"
    case true.true => exact ⟨_, rfl⟩
    all_goals (
      simp only [Bool.true_and, Bool.and_false, Bool.and_true, Bool.false_and,
        Bool.false_eq_true, if_false, eq_self_iff_true, if_true, pure, Except.pure]
      cases hTr : truthy (jlook event "source")
      case true =>
        obtain ⟨s, hs⟩ := hsrc hS hTr
        rw [hs]
        simp only [eq_self_iff_true, if_true, asStr, Except.bind]
        exact ⟨_, rfl⟩
      case false =>
        simp only [Bool.false_eq_true, if_false]
        simpa using elbTag_ok event hobj hrc hctx)
  | false =>
    simp only [Bool.false_and, Bool.false_eq_true, if_false, pure, Except.pure]
    simpa using elbTag_ok event hobj hrc hctx

theorem recordsTag_ok (r0 : JsValue) (hr0 : objOrArr r0 = true)
    (hES : hasKeyB r0 "EventSource" = true → ∃ s, jlook r0 "EventSource" = .str s)
    (hes : hasKeyB r0 "eventSource" = true → ∃ s, jlook r0 "eventSource" = .str s) :
    ∃ t, recordsTag r0 = .ok t := by
  unfold recordsTag
  simp only [jsIn_ok _ _ hr0, jsGet_ok _ _ hr0, bind, Except.bind]
  cases hE1 : hasKeyB r0 "EventSource" with
  | true =>
    obtain ⟨s1, hs1⟩ := hES hE1
    rw [hs1]
    simp only [if_true, asStr, Except.bind]
    cases hE2 : hasKeyB r0 "eventSource" with
    | true =>
      obtain ⟨s2, hs2⟩ := hes hE2
      rw [hs2]
      exact ⟨_, rfl⟩
    | false => exact ⟨_, rfl⟩
  | false =>
    simp only [Bool.false_eq_true, if_false]
    cases hE2 : hasKeyB r0 "eventSource" with
    | true =>
      obtain ⟨s2, hs2⟩ := hes hE2
      rw [hs2]
      simp only [if_true, asStr, Except.bind]
      exact ⟨_, rfl⟩
    | false => exact ⟨_, rfl⟩

/-- The evaluation conditions under which the predicate chain of
`createFromEvent` provably raises no `TypeError`: the payload (when truthy)
is an object or array; when it has a `Records` key the list and its first
element are objects/arrays and the `EventSource`/`eventSource` fields of the
first element, when present, are strings; a truthy `source` value is a
string; and the `requestContext` and `context` values, when present, are
objects/arrays. -/
def ClassifySafe (event : JsValue) : Prop :=
  truthy event = true →
    objOrArr event = true ∧
    (hasKeyB event "Records" = true →
      objOrArr (jlook event "Records") = true ∧
      objOrArr (jidx (jlook event "Records") 0) = true ∧
      (hasKeyB (jidx (jlook event "Records") 0) "EventSource" = true →
        ∃ s, jlook (jidx (jlook event "Records") 0) "EventSource" = .str s) ∧
      (hasKeyB (jidx (jlook event "Records") 0) "eventSource" = true →
        ∃ s, jlook (jidx (jlook event "Records") 0) "eventSource" = .str s)) ∧
    (hasKeyB event "source" = true → truthy (jlook event "source") = true →
      ∃ s, jlook event "source" = .str s) ∧
    (hasKeyB event "requestContext" = true →
      objOrArr (jlook event "requestContext") = true) ∧
    (hasKeyB event "context" = true → objOrArr (jlook event "context") = true)

/-- C1 (counterexample).  The claim says the tag-determination phase
evaluates without raising an error for every payload, naming in particular a
payload whose `Records` field is an empty list and a payload whose `context`
field is null; on both of these the source throws a `TypeError`
(`'EventSource' in event.Records[0]` with `Records[0]` undefined, and
`'http-method' in event.context` with `context` null). -/
theorem c1_classifier_totality_counterexample :
    classifyTag (.obj [("Records", .arr [])]) = .error () ∧
    classifyTag (.obj [("context", .null)]) = .error () :=
  ⟨rfl, rfl⟩

/-- C1 (amended).  The tag-determination phase evaluates without error —
treating missing nested fields as a non-match — for every payload meeting
the `ClassifySafe` conditions; outside them (a payload whose `Records` list
is empty, or whose `context`/`requestContext` field is not an object, or a
truthy non-object payload) the evaluation can throw a `TypeError`. -/
theorem c1_classifier_totality_safe (event : JsValue) (h : ClassifySafe event) :
    ∃ tag, classifyTag event = .ok tag := by
  unfold classifyTag
  cases ht : truthy event with
  | false => exact ⟨"json", by simp [ht, pure, Except.pure]⟩
  | true =>
    obtain ⟨hobj, hrec, hsrc, hrc, hctx⟩ := h ht
    simp only [ht, if_true, jsIn_ok _ _ hobj, jsGet_ok _ _ hobj, bind, Except.bind]
    cases hR : hasKeyB event "Records" with
    | true =>
      obtain ⟨hrv, hr0, hES, hes⟩ := hrec hR
      simp only [if_true, jsIndex_ok 0 _ hrv]
      simpa using recordsTag_ok _ hr0 hES hes
    | false =>
      simp only [Bool.false_eq_true, if_false]
      simpa using sourceTag_ok event hobj hsrc hrc hctx

/-- C1 (witness): the safety conditions hold of a concrete payload carrying a
`Records` list with an s3-shaped first record, and the classifier succeeds
on it. -/
theorem c1_classifier_totality_safe_witness :
    ∃ tag, classifyTag
      (.obj [("Records", .arr [.obj [("eventSource", .str "aws:s3")]])]) = .ok tag :=
  c1_classifier_totality_safe _ (fun _ =>
    ⟨rfl,
     fun _ => ⟨rfl, rfl, fun h => absurd h (by decide), fun _ => ⟨"aws:s3", rfl⟩⟩,
     fun h => absurd h (by decide),
     fun h => absurd h (by decide),
     fun h => absurd h (by decide)⟩)

theorem hasKeyB_objOrArr {v : JsValue} {k : String} (h : hasKeyB v k = true) :
    objOrArr v = true := by
  cases v <;> simp_all [hasKeyB, objOrArr]

theorem objOrArr_truthy {v : JsValue} (h : objOrArr v = true) :
    truthy v = true := by
  cases v <;> simp_all [objOrArr, truthy]

/-- A sample environment used to instantiate witnesses. -/
def sampleEnv : Env :=
  { uuid := "u0", now := 3, metadataOnly := false, awsAvailable := true,
    md5f := fun s => s, snsLookup := fun _ => none }

/-- C3 (counterexample).  A payload with a `source` field and no
`detail-type` derives its tag from the last dot-segment of `source` with no
enumeration check: `{source: "my.custom"}` classifies as `custom`, which is
outside the closed enumeration, and the subsequent registry lookup does not
find an extractor — `createFromEvent` throws instead. -/
theorem c3_tag_enum_counterexample :
    classifyTag (.obj [("source", .str "my.custom")]) = .ok "custom" ∧
    "custom" ∉ tagEnum ∧
    createFromEvent sampleEnv (.obj [("source", .str "my.custom")]) ⟨"f"⟩ =
      .error () :=
  ⟨rfl, by decide, rfl⟩

theorem registryLookup_none {tag : String} (h : tag ∉ tagEnum) :
    registryLookup tag = none := by
  unfold registryLookup
  split
  all_goals first
    | rfl
    | exact absurd (by decide) h

/-- C3 (amended).  A tag resolved by the classifier that lies outside the
closed enumeration makes the registry lookup fail (so `createFromEvent`
throws a `TypeError` calling `undefined`), while every tag inside the
enumeration has a registered extractor. -/
theorem c3_tag_enum_amended :
    (∀ event tag, classifyTag event = .ok tag → tag ∉ tagEnum →
      ∀ env context, createFromEvent env event context = .error ()) ∧
    (∀ tag, tag ∈ tagEnum → (registryLookup tag).isSome = true) := by
  constructor
  · intro event tag hcl htag env context
    unfold createFromEvent
    simp only [hcl, bind, Except.bind, registryLookup_none htag]
  · intro tag htag
    fin_cases htag <;> rfl

/-- C3 (amended, witness): `{source: "a.other"}` classifies as `other`,
outside the enumeration, and `createFromEvent` errors on it. -/
theorem c3_tag_enum_amended_witness :
    createFromEvent sampleEnv (.obj [("source", .str "a.other")]) ⟨"f"⟩ = .error () :=
  c3_tag_enum_amended.1 (.obj [("source", .str "a.other")]) "other" rfl (by decide)
    sampleEnv ⟨"f"⟩

/-- C4 (counterexample).  The two `Records[0]` predicates are successive
non-exclusive `if`s, so when both `EventSource` and `eventSource` are
present the *later* assignment from `eventSource` wins (here `s3`, not the
`sns` the claim derives from `EventSource`); and when `Records` is present
but its first element carries neither field, the later predicates are not
consulted at all — the tag stays `json` even though the payload has
`httpMethod`. -/
theorem c4_order_counterexample :
    (classifyTag (.obj [("Records", .arr [.obj [("EventSource", .str "aws:sns"),
      ("eventSource", .str "aws:s3")]])]) = .ok "s3" ∧
     classifyTag (.obj [("Records", .arr [.obj [("EventSource", .str "aws:sns"),
      ("eventSource", .str "aws:s3")]])]) ≠ .ok "sns") ∧
    classifyTag (.obj [("Records", .arr [.obj []]), ("httpMethod", .str "GET")]) =
      .ok "json" :=
  ⟨⟨rfl, by intro h; exact absurd (Except.ok.inj h) (by decide)⟩, rfl⟩

/-- C4 (amended).  What the code actually does: when `Records[0]` carries
only `EventSource` the tag derives from it; when it carries both fields the
second `if` overwrites and the tag derives from `eventSource`; and when
`Records` is present with a first element carrying neither field, evaluation
stops with `json` — the later predicates (`source`, elb, `httpMethod`, …)
are never consulted.  The `else if` predicates 3-12 retain first-match-wins
order. -/
theorem c4_order_amended :
    (∀ a : String, recordsTag (.obj [("EventSource", .str a)]) =
      .ok (splitPop a ':')) ∧
    (∀ a b : String, recordsTag (.obj [("EventSource", .str a),
      ("eventSource", .str b)]) = .ok (splitPop b ':')) ∧
    (∀ (rest : List (String × JsValue)) (r0 : JsValue),
      objOrArr r0 = true →
      hasKeyB r0 "EventSource" = false → hasKeyB r0 "eventSource" = false →
      classifyTag (.obj (("Records", .arr [r0]) :: rest)) = .ok "json") := by
  refine ⟨fun a => rfl, fun a b => rfl, fun rest r0 hobj hE1 hE2 => ?_⟩
  have h1 : classifyTag (.obj (("Records", .arr [r0]) :: rest)) = recordsTag r0 := by
    unfold classifyTag
    simp [truthy, jsIn, hasKeyB, lookupField, jsGet, lookupD, jsIndex, bind,
      Except.bind]
  rw [h1]
  unfold recordsTag
  simp only [jsIn_ok _ _ hobj, hE1, hE2, bind, Except.bind, Bool.false_eq_true,
    if_false, pure, Except.pure]

/-- C4 (amended, witness): a record with neither field, next to an
`httpMethod` key, classifies as `json`. -/
theorem c4_order_amended_witness :
    classifyTag (.obj [("Records", .arr [.obj [("eventID", .str "e1")]]),
      ("httpMethod", .str "GET")]) = .ok "json" :=
  c4_order_amended.2.2 [("httpMethod", .str "GET")] (.obj [("eventID", .str "e1")])
    rfl (by decide) (by decide)

/-- C5 (confirmed).  A payload containing both `requestContext.elb` and
`httpMethod`, matching none of the earlier `Records`/`source` predicates,
classifies as `elastic_load_balancer` (predicate 5 precedes predicate 6). -/
theorem c5_elb_precedes_api_gateway (event : JsValue)
    (hobj : objOrArr event = true)
    (hR : hasKeyB event "Records" = false)
    (hP3 : ¬(hasKeyB event "source" = true ∧ hasKeyB event "detail-type" = true ∧
      hasKeyB event "detail" = true))
    (hP4 : hasKeyB event "source" = true → truthy (jlook event "source") = false)
    (hRC : hasKeyB event "requestContext" = true)
    (hElb : hasKeyB (jlook event "requestContext") "elb" = true)
    (hHM : hasKeyB event "httpMethod" = true) :
    classifyTag event = .ok "elastic_load_balancer" := by
  have hrcObj : objOrArr (jlook event "requestContext") = true := hasKeyB_objOrArr hElb
  unfold classifyTag sourceTag elbTag
  simp only [objOrArr_truthy hobj, if_true, jsIn_ok _ _ hobj, jsGet_ok _ _ hobj,
    jsIn_ok _ _ hrcObj, hR, hRC, hElb, bind, Except.bind, Bool.false_eq_true,
    if_false, eq_self_iff_true, pure, Except.pure]
  cases hS : hasKeyB event "source" with
  | true =>
    have hDTl : hasKeyB event "detail-type" = false ∨ hasKeyB event "detail" = false := by
      rcases Bool.eq_false_or_eq_true (hasKeyB event "detail-type") with h1 | h1
      · rcases Bool.eq_false_or_eq_true (hasKeyB event "detail") with h2 | h2
        · exact absurd ⟨hS, h1, h2⟩ hP3
        · exact Or.inr h2
      · exact Or.inl h1
    have hTr := hP4 hS
    rcases hDTl with h1 | h1 <;>
      simp only [h1, Bool.true_and, Bool.and_false, Bool.false_and,
        Bool.false_eq_true, if_false, hTr, if_true, eq_self_iff_true]
  | false =>
    simp only [Bool.false_and, Bool.false_eq_true, if_false]

/-- C5 (witness): the concrete payload
`{requestContext: {elb: {}}, httpMethod: "GET"}`. -/
theorem c5_elb_precedes_api_gateway_witness :
    classifyTag (.obj [("requestContext", .obj [("elb", .obj [])]),
      ("httpMethod", .str "GET")]) = .ok "elastic_load_balancer" :=
  c5_elb_precedes_api_gateway _ rfl (by decide) (by decide) (by decide) rfl
    (by decide) (by decide)

/-- C6 (confirmed).  The empty payload `{}` and the null payload both
classify as `json`, and the resulting trigger is built by the json
extractor: resource type `json`, resource operation the constant `Event`,
resource name `trigger-` followed by the context's function name. -/
theorem c6_fallback_json (env : Env) (context : Ctx) :
    classifyTag (.obj []) = .ok "json" ∧
    classifyTag .null = .ok "json" ∧
    (createFromEvent env (.obj []) context).map
        (fun t => (t.resourceType, t.resourceOperation, t.resourceName)) =
      .ok ("json", .str "Event", .str ("trigger-" ++ context.functionName)) ∧
    (createFromEvent env .null context).map
        (fun t => (t.resourceType, t.resourceOperation, t.resourceName)) =
      .ok ("json", .str "Event", .str ("trigger-" ++ context.functionName)) :=
  ⟨rfl, rfl, rfl, rfl⟩

theorem char_eq_of_not_lt {a b : Char} (h : ¬ a.val < b.val) (h2 : ¬ b.val < a.val) :
    a = b := by
  apply Char.ext
  have n1 : ¬ a.val.toNat < b.val.toNat := h
  have n2 : ¬ b.val.toNat < a.val.toNat := h2
  have h3 : a.val.toNat = b.val.toNat := by omega
  cases hA : a.val; cases hB : b.val
  rw [hA, hB] at h3
  congr 1
  exact BitVec.eq_of_toNat_eq h3

theorem charsLe_total : ∀ as bs : List Char, charsLe as bs = true ∨ charsLe bs as = true := by
  intro as
  induction as with
  | nil => intro bs; exact Or.inl rfl
  | cons a as ih =>
    intro bs
    cases bs with
    | nil => exact Or.inr rfl
    | cons b bs =>
      simp only [charsLe]
      by_cases hab : a.val < b.val
      · exact Or.inl (by simp [hab])
      · by_cases hba : b.val < a.val
        · exact Or.inr (by simp [hba])
        · rcases ih bs with h | h
          · exact Or.inl (by simp [hab, hba, h])
          · exact Or.inr (by simp [hab, hba, h])

theorem charsLe_antisymm : ∀ {as bs : List Char},
    charsLe as bs = true → charsLe bs as = true → as = bs := by
  intro as
  induction as with
  | nil =>
    intro bs _ h2
    cases bs with
    | nil => rfl
    | cons b bs => simp [charsLe] at h2
  | cons a as ih =>
    intro bs h1 h2
    cases bs with
    | nil => simp [charsLe] at h1
    | cons b bs =>
      simp only [charsLe] at h1 h2
      by_cases hab : a.val < b.val
      · have nba : ¬ b.val < a.val := by
          have x1 : a.val.toNat < b.val.toNat := hab
          intro hb
          have x2 : b.val.toNat < a.val.toNat := hb
          omega
        simp [hab, nba] at h2
      · by_cases hba : b.val < a.val
        · simp [hab, hba] at h1
        · have hc : a = b := char_eq_of_not_lt hab hba
          subst hc
          simp only [hab, if_neg, ite_self] at h1 h2
          rw [ih h1 h2]

theorem charsLe_trans : ∀ (as bs cs : List Char),
    charsLe as bs = true → charsLe bs cs = true → charsLe as cs = true := by
  intro as
  induction as with
  | nil => intro bs cs _ _; rfl
  | cons a as ih =>
    intro bs cs h1 h2
    cases bs with
    | nil => simp [charsLe] at h1
    | cons b bs =>
      cases cs with
      | nil => simp [charsLe] at h2
      | cons c cs =>
        simp only [charsLe] at h1 h2 ⊢
        have t1 : a.val < b.val ∨ (¬ a.val < b.val ∧ ¬ b.val < a.val ∧
            charsLe as bs = true) := by
          by_cases hab : a.val < b.val
          · exact Or.inl hab
          · by_cases hba : b.val < a.val
            · simp [hab, hba] at h1
            · exact Or.inr ⟨hab, hba, by simpa [hab, hba] using h1⟩
        have t2 : b.val < c.val ∨ (¬ b.val < c.val ∧ ¬ c.val < b.val ∧
            charsLe bs cs = true) := by
          by_cases hbc : b.val < c.val
          · exact Or.inl hbc
          · by_cases hcb : c.val < b.val
            · simp [hbc, hcb] at h2
            · exact Or.inr ⟨hbc, hcb, by simpa [hbc, hcb] using h2⟩
        rcases t1 with hab | ⟨hab, hba, hr1⟩ <;> rcases t2 with hbc | ⟨hbc, hcb, hr2⟩
        · have : a.val < c.val := by
            have x1 : a.val.toNat < b.val.toNat := hab
            have x2 : b.val.toNat < c.val.toNat := hbc
            exact show a.val.toNat < c.val.toNat by omega
          simp [this]
        · have hb : b = c := char_eq_of_not_lt hbc hcb
          subst hb
          simp [hab]
        · have hb : a = b := char_eq_of_not_lt hab hba
          subst hb
          simp [hbc]
        · have hb : a = b := char_eq_of_not_lt hab hba
          have hb2 : b = c := char_eq_of_not_lt hbc hcb
          subst hb
          subst hb2
          simp [hab, ih bs cs hr1 hr2]

theorem strLe_total (a b : String) : strLe a b = true ∨ strLe b a = true :=
  charsLe_total a.toList b.toList

theorem strLe_antisymm {a b : String} (h1 : strLe a b = true)
    (h2 : strLe b a = true) : a = b := by
  have h3 : a.toList = b.toList := charsLe_antisymm h1 h2
  cases a; cases b; simp_all [String.toList]

theorem strLe_trans {a b c : String} (h1 : strLe a b = true)
    (h2 : strLe b c = true) : strLe a c = true :=
  charsLe_trans a.toList b.toList c.toList h1 h2

theorem strLe_false {a b : String} (h : strLe a b = false) : strLe b a = true := by
  rcases strLe_total a b with h1 | h1
  · rw [h1] at h; cases h
  · exact h1

theorem insertField_comm (a b : String × JsValue) (hab : a.1 ≠ b.1) :
    ∀ L, insertField a (insertField b L) = insertField b (insertField a L) := by
  have hne : ¬(strLe a.1 b.1 = true ∧ strLe b.1 a.1 = true) :=
    fun ⟨h1, h2⟩ => hab (strLe_antisymm h1 h2)
  intro L
  induction L with
  | nil =>
    simp only [insertField]
    rcases strLe_total a.1 b.1 with h | h
    · have h2 : strLe b.1 a.1 = false := by
        cases hb : strLe b.1 a.1
        · rfl
        · exact absurd ⟨h, hb⟩ hne
      simp [insertField, h, h2]
    · have h2 : strLe a.1 b.1 = false := by
        cases hb : strLe a.1 b.1
        · rfl
        · exact absurd ⟨hb, h⟩ hne
      simp [insertField, h, h2]
  | cons c L ih =>
    simp only [insertField]
    by_cases hbc : strLe b.1 c.1 = true
    · by_cases hac : strLe a.1 c.1 = true
      · simp only [hbc, hac, if_true, insertField]
        rcases strLe_total a.1 b.1 with h | h
        · have h2 : strLe b.1 a.1 = false := by
            cases hb : strLe b.1 a.1
            · rfl
            · exact absurd ⟨h, hb⟩ hne
          simp [insertField, h, h2, hac, hbc]
        · have h2 : strLe a.1 b.1 = false := by
            cases hb : strLe a.1 b.1
            · rfl
            · exact absurd ⟨hb, h⟩ hne
          simp [insertField, h, h2, hac, hbc]
      · have hab2 : strLe a.1 b.1 = false := by
          cases hb : strLe a.1 b.1
          · rfl
          · exact absurd (strLe_trans hb hbc) (by simp [hac])
        have hba : strLe b.1 a.1 = true := strLe_false hab2
        simp only [hbc, if_true, insertField, hab2, Bool.false_eq_true, if_false,
          hac, hba]
    · by_cases hac : strLe a.1 c.1 = true
      · have hba2 : strLe b.1 a.1 = false := by
          cases hb : strLe b.1 a.1
          · rfl
          · exact absurd (strLe_trans hb hac) (by simp [hbc])
        simp only [hbc, Bool.false_eq_true, if_false, insertField, hac, if_true,
          hba2]
      · simp only [hbc, hac, Bool.false_eq_true, if_false, insertField, ih]

theorem sortFields_perm_eq : ∀ {l1 l2 : List (String × JsValue)}, l1.Perm l2 →
    (l1.map Prod.fst).Nodup → sortFields l1 = sortFields l2 := by
  intro l1 l2 hp
  induction hp with
  | nil => intro _; rfl
  | cons x hp ih =>
    intro hnd
    simp only [List.map_cons, List.nodup_cons] at hnd
    simp only [sortFields]
    rw [ih hnd.2]
  | swap x y l =>
    intro hnd
    simp only [List.map_cons, List.nodup_cons, List.mem_cons] at hnd
    have hxy : y.1 ≠ x.1 := fun h => hnd.1 (Or.inl h)
    simp only [sortFields]
    exact insertField_comm y x hxy (sortFields l)
  | trans hp1 hp2 ih1 ih2 =>
    intro hnd
    rw [ih1 hnd, ih2 ((hp1.map Prod.fst).nodup_iff.mp hnd)]

theorem canonFields_eq_map (l : List (String × JsValue)) :
    canonFields l = l.map (fun p => (p.1, canon p.2)) := by
  induction l with
  | nil => rfl
  | cons p rest ih => cases p; simp [canonFields, ih]

/-- Key invariance and permutation invariance of the canonical sorted-key
serialization: two objects with the same fields in different orders (keys
duplicate-free) have the same `JSON.sortify` text. -/
theorem sortify_obj_perm (fs1 fs2 : List (String × JsValue)) (hp : fs1.Perm fs2)
    (hnd : (fs1.map Prod.fst).Nodup) : sortify (.obj fs1) = sortify (.obj fs2) := by
  unfold sortify
  simp only [canon]
  have hperm : (canonFields fs1).Perm (canonFields fs2) := by
    rw [canonFields_eq_map, canonFields_eq_map]
    exact hp.map _
  have hkeys : (canonFields fs1).map Prod.fst = fs1.map Prod.fst := by
    rw [canonFields_eq_map, List.map_map]
    rfl
  have hnd2 : ((canonFields fs1).map Prod.fst).Nodup := by rw [hkeys]; exact hnd
  rw [sortFields_perm_eq hperm hnd2]

/-- A DynamoDB stream record carrying the fields the item hash consults. -/
def mkDynamoRecord (en : String) (keys newImage : JsValue) : JsValue :=
  .obj [("eventName", .str en),
        ("dynamodb", .obj [("Keys", keys), ("NewImage", newImage)])]

/-- A fully-formed DynamoDB stream event (one record). -/
def mkDynamoEvent (en eid arn region seq : String) (keys newImage : JsValue) :
    JsValue :=
  .obj [("Records", .arr [.obj
    [("eventID", .str eid), ("eventName", .str en),
     ("eventSourceARN", .str arn), ("awsRegion", .str region),
     ("dynamodb", .obj [("Keys", keys), ("NewImage", newImage),
       ("SequenceNumber", .str seq)])]])]

/-- C8 (confirmed).  The DynamoDB item hash: (a) for a `REMOVE` record the
hash is computed from the decoded key attributes only, so it is invariant
under any change of the new image; (b) for any other event name it is the
hash of the canonical serialization of the decoded full new image; (c) two
objects with equal fields whose keys appear in different orders (keys
duplicate-free) hash identically, the canonical sorted-key JSON form being
hashed; (d) with the aws-sdk unavailable the extractor still succeeds and
attaches an empty-string `item_hash` annotation. -/
theorem c8_dynamo_item_hash :
    (∀ (md5f : String → String) (K X Y : JsValue),
      dynamoItemHash md5f (mkDynamoRecord "REMOVE" K X) =
        dynamoItemHash md5f (mkDynamoRecord "REMOVE" K Y)) ∧
    (∀ (md5f : String → String) (en : String) (K X : JsValue), en ≠ "REMOVE" →
      dynamoItemHash md5f (mkDynamoRecord en K X) =
        .ok (md5f (sortify (unmarshall X)))) ∧
    (∀ (md5f : String → String) (fs1 fs2 : List (String × JsValue)),
      fs1.Perm fs2 → (fs1.map Prod.fst).Nodup →
      md5f (sortify (.obj fs1)) = md5f (sortify (.obj fs2))) ∧
    (∀ (uuid : String) (now : Nat) (mo : Bool) (md5f : String → String)
       (snsf : List JsValue → Option JsValue) (context : Ctx)
       (en eid arn region seq : String) (K X : JsValue),
      ∃ t, createDynamoDBTrigger ⟨uuid, now, mo, false, md5f, snsf⟩
          (mkDynamoEvent en eid arn region seq K X) context blankTrigger = .ok t ∧
        ("item_hash", .str "") ∈ t.annotations) := by
  refine ⟨fun md5f K X Y => rfl, fun md5f en K X hen => ?_, ?_, ?_⟩
  · unfold dynamoItemHash mkDynamoRecord
    have hne : isStrEq (.str en) "REMOVE" = false := by
      simp [isStrEq, hen]
    simp [jsGet, lookupD, lookupField, bind, Except.bind, hne, pure, Except.pure]
  · intro md5f fs1 fs2 hp hnd
    exact congrArg md5f (sortify_obj_perm fs1 fs2 hp hnd)
  · intro uuid now mo md5f snsf context en eid arn region seq K X
    exact ⟨_, rfl, by simp [addToMetadata, blankTrigger]⟩

/-- C8 (witness): concrete instantiations — a `REMOVE` record's hash ignores
the new image; an `INSERT` record hashes the new image; two key-permuted
objects hash identically; with the sdk unavailable the `item_hash`
annotation is the empty string. -/
theorem c8_dynamo_item_hash_witness :
    dynamoItemHash (fun s => s) (mkDynamoRecord "REMOVE"
        (.obj [("k", .obj [("S", .str "a")])]) (.obj [("x", .obj [("N", .str "1")])])) =
      dynamoItemHash (fun s => s) (mkDynamoRecord "REMOVE"
        (.obj [("k", .obj [("S", .str "a")])]) (.obj [("y", .obj [("N", .str "2")])])) ∧
    dynamoItemHash (fun s => s) (mkDynamoRecord "INSERT"
        (.obj [("k", .obj [("S", .str "a")])]) (.obj [("x", .obj [("N", .str "1")])])) =
      .ok (sortify (unmarshall (.obj [("x", .obj [("N", .str "1")])]))) ∧
    (fun s => s) (sortify (.obj [("a", .num 1), ("b", .num 2)])) =
      (fun s => s) (sortify (.obj [("b", .num 2), ("a", .num 1)])) ∧
    ∃ t, createDynamoDBTrigger ⟨"u", 0, false, false, fun s => s, fun _ => none⟩
        (mkDynamoEvent "INSERT" "e1" "arn:aws:dynamodb/tbl/stream" "us-east-1" "7"
          (.obj [("k", .obj [("S", .str "a")])]) (.obj [("x", .obj [("N", .str "1")])]))
        ⟨"f"⟩ blankTrigger = .ok t ∧
      ("item_hash", .str "") ∈ t.annotations :=
  ⟨c8_dynamo_item_hash.1 (fun s => s) _ _ _,
   c8_dynamo_item_hash.2.1 (fun s => s) "INSERT" _ _ (by decide),
   c8_dynamo_item_hash.2.2.1 (fun s => s) _ _
     (List.Perm.swap _ _ _) (by decide),
   c8_dynamo_item_hash.2.2.2 "u" 0 false (fun s => s) (fun _ => none) ⟨"f"⟩
     "INSERT" "e1" "arn:aws:dynamodb/tbl/stream" "us-east-1" "7" _ _⟩

/-- A fully-formed S3 notification event (one record). -/
def mkS3Event (reqId bucket ename region okey etag : String) (osize : Int) : JsValue :=
  .obj [("Records", .arr [.obj
    [("eventSource", .str "aws:s3"),
     ("eventName", .str ename),
     ("awsRegion", .str region),
     ("requestParameters", .obj []),
     ("userIdentity", .obj []),
     ("responseElements", .obj [("x-amz-request-id", .str reqId)]),
     ("s3", .obj [("bucket", .obj [("name", .str bucket)]),
                  ("object", .obj [("key", .str okey), ("size", .num osize),
                                   ("eTag", .str etag)])])]])]

/-- A fully-formed API-gateway proxy event. -/
def mkApiGatewayEvent (reqId host method stage path body : String) : JsValue :=
  .obj [("httpMethod", .str method),
        ("headers", .obj [("Host", .str host)]),
        ("requestContext", .obj [("requestId", .str reqId),
          ("apiId", .str "api1"), ("stage", .str stage)]),
        ("queryStringParameters", .obj []),
        ("pathParameters", .obj []),
        ("resource", .str path),
        ("body", .str body)]

/-- C2 (counterexample).  The claim's own example payload — classified `s3`
because `Records[0].eventSource` is `aws:s3` but lacking `responseElements` —
makes the s3 extractor throw (`responseElements['x-amz-request-id']` on
`undefined`), and `createFromEvent` propagates the error; likewise a payload
classified `api_gateway` by its `httpMethod` alone makes the API-gateway
extractor throw on `event.requestContext.requestId`. -/
theorem c2_extractor_safety_counterexample :
    classifyTag (.obj [("Records", .arr [.obj [("eventSource", .str "aws:s3")]])]) =
      .ok "s3" ∧
    createS3Trigger sampleEnv
      (.obj [("Records", .arr [.obj [("eventSource", .str "aws:s3")]])]) ⟨"f"⟩
      blankTrigger = .error () ∧
    createFromEvent sampleEnv
      (.obj [("Records", .arr [.obj [("eventSource", .str "aws:s3")]])]) ⟨"f"⟩ =
      .error () ∧
    classifyTag (.obj [("httpMethod", .str "GET")]) = .ok "api_gateway" ∧
    createAPIGatewayTrigger sampleEnv (.obj [("httpMethod", .str "GET")]) ⟨"f"⟩
      blankTrigger = .error () :=
  ⟨rfl, rfl, rfl, rfl, rfl⟩

/-- C2 (amended).  Extraction can throw on partially well-formed payloads (see
the counterexample); it does run to completion on payloads carrying the full
shape of the classified type: the s3 extractor on any fully-formed s3 event,
and the API-gateway extractor on any fully-formed proxy event with a
non-empty `Host` header. -/
theorem c2_extractor_safety_amended :
    (∀ env context reqId bucket ename region okey etag osize,
      ∃ t, createS3Trigger env (mkS3Event reqId bucket ename region okey etag osize)
          context blankTrigger = .ok t ∧
        t.id = .str reqId ∧ t.resourceName = .str bucket ∧
        t.resourceOperation = .str ename) ∧
    (∀ env context reqId host method stage path body, host ≠ "" →
      ∃ t, createAPIGatewayTrigger env
          (mkApiGatewayEvent reqId host method stage path body) context
          blankTrigger = .ok t ∧
        t.id = .str reqId ∧ t.resourceName = .str host ∧
        t.resourceOperation = .str method) := by
  constructor
  · intro env context reqId bucket ename region okey etag osize
    exact ⟨_, rfl, rfl, rfl, rfl⟩
  · intro env context reqId host method stage path body hh
    have hhost : truthy (.str host) = true := by simp [truthy, hh]
    unfold createAPIGatewayTrigger mkApiGatewayEvent
    simp only [jsGet, lookupD, lookupField, bind, Except.bind, pure, Except.pure,
      hhost, if_true, String.reduceEq, reduceIte]
    exact ⟨_, rfl, rfl, rfl, rfl⟩

/-- C2 (amended, witness): concrete fully-formed s3 and API-gateway payloads
extract successfully with the documented id, name and operation. -/
theorem c2_extractor_safety_amended_witness :
    (∃ t, createS3Trigger sampleEnv
        (mkS3Event "r1" "my-bucket" "ObjectCreated:Put" "us-east-1" "k.txt" "e1" 42)
        ⟨"f"⟩ blankTrigger = .ok t ∧
      t.id = .str "r1" ∧ t.resourceName = .str "my-bucket" ∧
      t.resourceOperation = .str "ObjectCreated:Put") ∧
    (∃ t, createAPIGatewayTrigger sampleEnv
        (mkApiGatewayEvent "r2" "h.example.com" "GET" "prod" "/x" "\x7b\x7d")
        ⟨"f"⟩ blankTrigger = .ok t ∧
      t.id = .str "r2" ∧ t.resourceName = .str "h.example.com" ∧
      t.resourceOperation = .str "GET") :=
  ⟨c2_extractor_safety_amended.1 sampleEnv ⟨"f"⟩ "r1" "my-bucket"
     "ObjectCreated:Put" "us-east-1" "k.txt" "e1" 42,
   c2_extractor_safety_amended.2 sampleEnv ⟨"f"⟩ "r2" "h.example.com" "GET"
     "prod" "/x" "\x7b\x7d" (by decide)⟩

/-- C9 (confirmed).  The SQS per-record entry: with `metadataOnly` false it
carries exactly the md5, message id, the (possibly truncated) message body,
the attributes and the message attributes; with `metadataOnly` true the body
and both attribute entries are entirely absent while md5 and message id
remain; and the body truncation cuts a string above the 1024-unit cap to the
cap with a marker appended, leaving shorter strings unchanged. -/
theorem c9_sqs_metadata_channels :
    (∀ fs, sqsRecordEntry false (.obj fs) = .ok (.obj
      [("MD5 Of Message Body", lookupD fs "md5OfBody"),
       ("Message ID", lookupD fs "messageId"),
       ("Message Body", truncateMessageJs
         (if truthy (lookupD fs "body") = true then lookupD fs "body"
          else .str "\x7b\x7d") MAX_SQS_BODY_LENGTH),
       ("Attributes", lookupD fs "attributes"),
       ("Message Attributes", lookupD fs "messageAttributes")])) ∧
    (∀ fs, sqsRecordEntry true (.obj fs) = .ok (.obj
      [("MD5 Of Message Body", lookupD fs "md5OfBody"),
       ("Message ID", lookupD fs "messageId")])) ∧
    (∀ fs e, sqsRecordEntry true (.obj fs) = .ok e →
      hasKeyB e "Message Body" = false ∧ hasKeyB e "Attributes" = false ∧
      hasKeyB e "Message Attributes" = false ∧
      hasKeyB e "Message ID" = true ∧ hasKeyB e "MD5 Of Message Body" = true) ∧
    (∀ s : String, s.length > MAX_SQS_BODY_LENGTH →
      truncateMessage s MAX_SQS_BODY_LENGTH =
        String.mk (s.toList.take MAX_SQS_BODY_LENGTH) ++ "...") ∧
    (∀ s : String, ¬ s.length > MAX_SQS_BODY_LENGTH →
      truncateMessage s MAX_SQS_BODY_LENGTH = s) := by
  refine ⟨fun fs => rfl, fun fs => rfl, ?_, ?_, ?_⟩
  · intro fs e h
    have h2 : sqsRecordEntry true (.obj fs) = .ok (.obj
      [("MD5 Of Message Body", lookupD fs "md5OfBody"),
       ("Message ID", lookupD fs "messageId")]) := rfl
    rw [h2] at h
    cases Except.ok.inj h
    exact ⟨rfl, rfl, rfl, rfl, rfl⟩
  · intro s h
    simp [truncateMessage, h]
  · intro s h
    simp [truncateMessage, h]

/-- C9 (witness): a concrete metadata-only record entry, absence of the body
key on it, and the truncation of a 2000-unit string to 1024 units plus the
marker. -/
theorem c9_sqs_metadata_channels_witness :
    sqsRecordEntry true (.obj [("messageId", .str "m1"), ("md5OfBody", .str "d5")]) =
      .ok (.obj [("MD5 Of Message Body", .str "d5"), ("Message ID", .str "m1")]) ∧
    (hasKeyB (.obj [("MD5 Of Message Body", .str "d5"), ("Message ID", .str "m1")])
        "Message Body" = false ∧
     hasKeyB (.obj [("MD5 Of Message Body", .str "d5"), ("Message ID", .str "m1")])
        "Message ID" = true) ∧
    truncateMessage (String.mk (List.replicate 2000 'a')) MAX_SQS_BODY_LENGTH =
      String.mk (List.replicate 1024 'a') ++ "..." := by
  refine ⟨c9_sqs_metadata_channels.2.1 _, ⟨?_, ?_⟩, ?_⟩
  · exact (c9_sqs_metadata_channels.2.2.1
      [("messageId", .str "m1"), ("md5OfBody", .str "d5")] _ rfl).1
  · exact (c9_sqs_metadata_channels.2.2.1
      [("messageId", .str "m1"), ("md5OfBody", .str "d5")] _ rfl).2.2.2.1
  · have hlen : (String.mk (List.replicate 2000 'a')).length = 2000 := by
      show (List.replicate 2000 'a').length = 2000
      simp only [List.length_replicate]
    have h : (String.mk (List.replicate 2000 'a')).length > MAX_SQS_BODY_LENGTH := by
      rw [hlen]; norm_num [MAX_SQS_BODY_LENGTH]
    rw [c9_sqs_metadata_channels.2.2.2.1 _ h]
    have htake : (String.mk (List.replicate 2000 'a')).toList.take MAX_SQS_BODY_LENGTH =
        List.replicate 1024 'a' := by
      show (List.replicate 2000 'a').take MAX_SQS_BODY_LENGTH = List.replicate 1024 'a'
      simp only [List.take_replicate, MAX_SQS_BODY_LENGTH]
      norm_num
    rw [htake]

/-- C10 (confirmed).  The tag resolved by `createFromEvent` — and with it the
`resource.type` set on the trigger — depends only on the payload: for any two
invocation contexts the results agree on `resourceType` (outcome included),
and for every tag other than `json` the entire result is
context-independent; only the json extractor reads the context (for its
resource name). -/
theorem c10_tag_context_independent :
    (∀ env event c1 c2,
      (createFromEvent env event c1).map Trigger.resourceType =
        (createFromEvent env event c2).map Trigger.resourceType) ∧
    (∀ env event c1 c2 tag, classifyTag event = .ok tag → tag ≠ "json" →
      createFromEvent env event c1 = createFromEvent env event c2) := by
  constructor
  · intro env event c1 c2
    unfold createFromEvent
    cases h : classifyTag event with
    | error e => rfl
    | ok tag =>
      simp only [bind, Except.bind]
      generalize hreg : registryLookup tag = r
      unfold registryLookup at hreg
      split at hreg <;> rw [← hreg] <;> rfl
  · intro env event c1 c2 tag hcl hjson
    unfold createFromEvent
    rw [hcl]
    simp only [bind, Except.bind]
    generalize hreg : registryLookup tag = r
    unfold registryLookup at hreg
    split at hreg <;> rw [← hreg] <;> first
      | rfl
      | simp_all

/-- C10 (witness): a concrete s3 payload builds the identical trigger under
two different contexts. -/
theorem c10_tag_context_independent_witness :
    createFromEvent sampleEnv
        (mkS3Event "r1" "b" "ObjectCreated:Put" "us-east-1" "k" "e" 1) ⟨"fnA"⟩ =
      createFromEvent sampleEnv
        (mkS3Event "r1" "b" "ObjectCreated:Put" "us-east-1" "k" "e" 1) ⟨"fnB"⟩ :=
  c10_tag_context_independent.2 sampleEnv _ ⟨"fnA"⟩ ⟨"fnB"⟩ "s3" rfl (by decide)

/-- An SQS record carrying the given body next to fully-formed id fields. -/
def mkSqsRecord (body : String) : JsValue :=
  .obj [("messageId", .str "m-1"),
        ("md5OfBody", .str "9af"),
        ("eventSourceARN", .str "arn:aws:sqs:us-east-1:123456789012:queue1"),
        ("body", .str body),
        ("attributes", .obj []),
        ("messageAttributes", .obj [])]

/-- The single-record SQS event for `mkSqsRecord`. -/
def mkSqsEvent (body : String) : JsValue :=
  .obj [("Records", .arr [mkSqsRecord body])]

/-- The trigger built by a successful run of `createSQSTrigger`, as a
function of the values of its intermediate reads. -/
def sqsResult (env : Env) (t0 : Trigger) (mid : JsValue) (arn : String)
    (body0 : JsValue) (elems entries : List JsValue) : Trigger :=
  let t1 := addToMetadata
    { t0 with id := mid, resourceName := .str ((splitChar arn ':').getLastD ""),
              resourceOperation := .str "ReceiveMessage" }
    [("record", .arr entries), ("total_record_count", .num (elems.length : Int))] []
  let t2 :=
    match sqsStepsDict (if truthy body0 then body0 else .str "\x7b\x7d") with
    | some sd => addToMetadata t1 [("steps_dict", sd)] []
    | none => t1
  match env.snsLookup elems with
  | some snsData => addToMetadata t2 [("SNS Trigger", snsData)] []
  | none => t2

theorem createSQSTrigger_eq (env : Env) (event : JsValue) (context : Ctx)
    (t0 : Trigger) (recs r0 mid : JsValue) (arn : String) (body0 : JsValue)
    (elems entries : List JsValue)
    (h1 : jsGet event "Records" = .ok recs)
    (h2 : jsIndex recs 0 = .ok r0)
    (h3 : jsGet r0 "messageId" = .ok mid)
    (h4 : jsGet r0 "eventSourceARN" = .ok (.str arn))
    (h5 : jsGet r0 "body" = .ok body0)
    (h6 : asArr recs = .ok elems)
    (h7 : sqsRecordEntries env.metadataOnly elems = .ok entries) :
    createSQSTrigger env event context t0 =
      .ok (sqsResult env t0 mid arn body0 elems entries) := by
  unfold createSQSTrigger sqsResult
  simp only [h1, h2, h3, h4, h5, h6, h7, bind, Except.bind, pure, Except.pure,
    asStr]

/-- C7 (confirmed).  In the SQS extractor, a first-record body parsing to
JSON with a truthy `input.Epsagon` sub-object yields a `steps_dict`
annotation equal to that sub-object (for the claim's body
`{"input":{"Epsagon":{"x":1}}}` the annotation is `{"x":1}`); a body that is
not valid JSON yields no `steps_dict` annotation and the extractor still
completes, the per-record list and the `total_record_count` annotation being
attached the same way in both cases. -/
theorem c7_sqs_steps_dict :
    (∀ env context, ∃ t,
      createSQSTrigger env
          (mkSqsEvent "\x7b\"input\":\x7b\"Epsagon\":\x7b\"x\":1\x7d\x7d\x7d")
          context blankTrigger = .ok t ∧
      ("steps_dict", .obj [("x", .num 1)]) ∈ t.annotations ∧
      (∃ rs, ("record", .arr rs) ∈ t.annotations ∧
        sqsRecordEntries env.metadataOnly
          [mkSqsRecord "\x7b\"input\":\x7b\"Epsagon\":\x7b\"x\":1\x7d\x7d\x7d"] =
          .ok rs) ∧
      ("total_record_count", .num 1) ∈ t.annotations) ∧
    (∀ env context, ∃ t,
      createSQSTrigger env (mkSqsEvent "not json") context blankTrigger = .ok t ∧
      (∀ v, ("steps_dict", v) ∉ t.annotations) ∧
      (∃ rs, ("record", .arr rs) ∈ t.annotations ∧
        sqsRecordEntries env.metadataOnly [mkSqsRecord "not json"] = .ok rs) ∧
      ("total_record_count", .num 1) ∈ t.annotations) := by
  constructor <;> intro env context <;>
    obtain ⟨uuid, now, mo, aws, md5f, snsf⟩ := env
  · have hsteps : sqsStepsDict
        (if truthy (.str "\x7b\"input\":\x7b\"Epsagon\":\x7b\"x\":1\x7d\x7d\x7d") = true
         then .str "\x7b\"input\":\x7b\"Epsagon\":\x7b\"x\":1\x7d\x7d\x7d"
         else .str "\x7b\x7d") = some (.obj [("x", .num 1)]) := rfl
    cases mo <;>
      refine ⟨_, createSQSTrigger_eq _ _ context blankTrigger
        (.arr [mkSqsRecord "\x7b\"input\":\x7b\"Epsagon\":\x7b\"x\":1\x7d\x7d\x7d"])
        (mkSqsRecord "\x7b\"input\":\x7b\"Epsagon\":\x7b\"x\":1\x7d\x7d\x7d")
        (.str "m-1") "arn:aws:sqs:us-east-1:123456789012:queue1"
        (.str "\x7b\"input\":\x7b\"Epsagon\":\x7b\"x\":1\x7d\x7d\x7d")
        [mkSqsRecord "\x7b\"input\":\x7b\"Epsagon\":\x7b\"x\":1\x7d\x7d\x7d"] _
        rfl rfl rfl rfl rfl rfl rfl, ?_, ⟨_, ?_, rfl⟩, ?_⟩ <;>
      unfold sqsResult <;>
      rw [hsteps] <;>
      cases hs : snsf [mkSqsRecord "\x7b\"input\":\x7b\"Epsagon\":\x7b\"x\":1\x7d\x7d\x7d"] <;>
      simp [addToMetadata, blankTrigger, hs]
  · have hsteps : sqsStepsDict
        (if truthy (.str "not json") = true then .str "not json"
         else .str "\x7b\x7d") = none := rfl
    cases mo <;>
      refine ⟨_, createSQSTrigger_eq _ _ context blankTrigger
        (.arr [mkSqsRecord "not json"]) (mkSqsRecord "not json")
        (.str "m-1") "arn:aws:sqs:us-east-1:123456789012:queue1"
        (.str "not json") [mkSqsRecord "not json"] _
        rfl rfl rfl rfl rfl rfl rfl, ?_, ⟨_, ?_, rfl⟩, ?_⟩ <;>
      unfold sqsResult <;>
      rw [hsteps] <;>
      cases hs : snsf [mkSqsRecord "not json"] <;>
      simp [addToMetadata, blankTrigger, hs]

end Epsagon
